import Mathlib

/-!
Shallow embedding of `experiments/eval_lc.py` (bridge_data_v2): the timed
control loop of `main`, with its observation-history buffer, sticky-gripper
debounce filter, action denormalization, and action-sequence execution.

Machine floats are modelled as rationals (`ℚ`); the only float operations
the verified claims depend on are comparisons with 0.5 and exact constants
0.0 / 1.0, plus the affine map `raw * std + mean`.  The policy network and
the physical robot are external collaborators; they are abstracted as an
arbitrary batch-producing function and an `EnvModel` whose `step` may fail
(returning `none` models an actuator-level Python exception).
-/

namespace EvalLC

/-- A 7-dimensional action vector (6 pose DOF plus gripper channel at
index 6, mirroring `action[-1]` in the source). -/
def Action : Type := Fin 7 → ℚ

/-- `STICKY_GRIPPER_NUM_STEPS = 1` from the source. -/
def STICKY_GRIPPER_NUM_STEPS : Nat := 1

/-- `NO_PITCH_ROLL = False` from the source. -/
def NO_PITCH_ROLL : Bool := false

/-- `NO_YAW = False` from the source. -/
def NO_YAW : Bool := false

/-- `FIXED_STD = np.array([0,0,0,0,0,0,0])` from the source. -/
def FIXED_STD : Action := fun _ => 0

/-- The sample of `np.random.normal(0, FIXED_STD)`: with all standard
deviations equal to 0 the sample is deterministically the zero vector. -/
def gaussianNoiseSample : Action := fun _ => 0

/-- The sticky-gripper process state: the variables `is_gripper_closed`
and `num_consecutive_gripper_change_actions` of `main`. -/
structure GripperState where
  is_closed : Bool
  consecutive_change_count : Nat
  deriving DecidableEq, Repr

/-- One update of the sticky-gripper state for a given per-step close
intent (`close_requested = action[-1] < 0.5`), mirroring source lines
250-260: increment the counter on disagreement, reset it on agreement,
then flip the state and zero the counter once the counter reaches the
threshold. -/
def gripperUpdate (threshold : Nat) (s : GripperState) (closeRequested : Bool) :
    GripperState :=
  let n := if closeRequested ≠ s.is_closed then s.consecutive_change_count + 1 else 0
  if threshold ≤ n then ⟨!s.is_closed, 0⟩ else ⟨s.is_closed, n⟩

/-- The full sticky-gripper filter applied to one action (source lines
250-262): compute `close_requested` from the gripper channel, update the
state, then overwrite the gripper channel with 0.0 when closed and 1.0
when open. -/
def stickyGripperStep (threshold : Nat) (s : GripperState) (a : Action) :
    GripperState × Action :=
  let closeRequested : Bool := decide (a 6 < 1/2)
  let s2 := gripperUpdate threshold s closeRequested
  (s2, Function.update a 6 (if s2.is_closed then 0 else 1))

/-- Degree-of-freedom removal (source lines 265-269); with the source's
constants `NO_PITCH_ROLL = NO_YAW = False` this is the identity. -/
def removeDof (a : Action) : Action :=
  let a1 := if NO_PITCH_ROLL then Function.update (Function.update a 3 0) 4 0 else a
  if NO_YAW then Function.update a1 5 0 else a1

/-- Action denormalization from `get_action` (source line 124):
`action * action_std + action_mean`, elementwise. -/
def denormalize (raw std mean : Action) : Action :=
  fun i => raw i * std i + mean i

/-- One push to the observation-history deque `obs_hist`
(`deque(maxlen=obs_horizon)`, source lines 217-218 and 233-237): on the
very first push the buffer is filled with `obs_horizon` copies
(`obs_hist.extend([obs] * obs_horizon)`), afterwards a single append that
evicts the oldest entry when the deque is at capacity. -/
def obsHistPush (N : Nat) (buf : List α) (o : α) : List α :=
  if buf.isEmpty then List.replicate N o
  else if N ≤ buf.length then buf.drop 1 ++ [o] else buf ++ [o]

/-- The external actuator (`env` in the source), abstracted: `step` models
`env.step(action, ...)` and returns `none` when the call raises an
actuator-level exception; `frameOf` models the `image_obs` frame rendered
from the current observation of an environment state; `reset` models
`env.reset(); env.start()`. -/
structure EnvModel (σ : Type) where
  step : σ → Action → Option σ
  frameOf : σ → Nat
  reset : σ → σ

/-- The mutable state threaded through one episode's rollout: environment
state (through `obs`), sticky-gripper state, the `images` frame list, and
the step counter `t` (source lines 213-221). -/
structure LoopState (σ : Type) where
  env : σ
  grip : GripperState
  images : List Nat
  t : Nat

/-- The inner `for i in range(FLAGS.act_exec_horizon)` loop (source lines
245-279) over one policy batch: each sub-step reads `actions[i]` (an
out-of-range index raises, modelled by the `[]` case returning `false`),
adds the (deterministically zero) Gaussian noise, applies the sticky
gripper filter and DOF removal, performs `env.step` (a raised exception
is the `none` case), then appends the pre-batch frame and increments `t`.
The returned `Bool` is `true` iff no exception was raised. -/
def execBatch (E : EnvModel σ) (threshold : Nat) (fr : Nat) :
    Nat → List Action → LoopState σ → LoopState σ × Bool
  | 0, _, st => (st, true)
  | _ + 1, [], st => (st, false)
  | h + 1, a :: rest, st =>
    let a1 : Action := fun i => a i + gaussianNoiseSample i
    let p := stickyGripperStep threshold st.grip a1
    let a2 := removeDof p.2
    match E.step st.env a2 with
    | none => ({ st with grip := p.1 }, false)
    | some e2 =>
      execBatch E threshold fr h rest
        { env := e2, grip := p.1, images := st.images ++ [fr], t := st.t + 1 }

/-- The policy output `actions = get_action(obs, goal_obs)`: a NumPy array
that is either 1-dimensional (a single 7-vector) or 2-dimensional
(a batch of 7-vectors). -/
inductive ActionsArray where
  | dim1 (a : Action)
  | dim2 (rows : List Action)

/-- Source lines 243-244: `if len(actions.shape) == 1: actions =
actions[None]` — a 1-D action array is promoted to a batch of length 1. -/
def promoteActions : ActionsArray → List Action
  | .dim1 a => [a]
  | .dim2 rows => rows

/-- The `while t < FLAGS.num_timesteps` rollout loop (source lines
223-279), with the policy abstracted as a function from the invocation
index to the batch it returns.  Each gate-passing iteration renders the
frame from the current observation, invokes the policy, and runs
`execBatch`; an exception aborts the episode (`false`).  `fuel` bounds the
number of iterations (the Python loop has no such bound; every theorem
below supplies enough fuel for the loop to reach `t ≥ N` on its own). -/
def runLoop (E : EnvModel σ) (threshold N H : Nat) (policy : Nat → List Action) :
    Nat → Nat → LoopState σ → LoopState σ × Bool
  | 0, _, st => (st, true)
  | fuel + 1, k, st =>
    if st.t < N then
      let r := execBatch E threshold (E.frameOf st.env) H (policy k) st
      if r.2 then runLoop E threshold N H policy fuel (k + 1) r.1 else (r.1, false)
    else (st, true)

/-- One full episode body (source lines 212-291): the rollout starting
from freshly initialized per-episode state (`images = []`, `t = 0`,
`is_gripper_closed = False`, counter 0), followed by the video save, which
— fault or not — flushes the accumulated `images` to the sink whenever a
`video_save_path` is configured.  Returns the final rollout state, the
no-fault flag, and the frames handed to the sink (`none` when no sink). -/
def runEpisodeAndSave (E : EnvModel σ) (threshold N H fuel : Nat)
    (policy : Nat → List Action) (sink : Bool) (s : σ) :
    (LoopState σ × Bool) × Option (List Nat) :=
  let r := runLoop E threshold N H policy fuel 0
    { env := s, grip := ⟨false, 0⟩, images := [], t := 0 }
  (r, if sink then some r.1.images else none)

/-- The outer `while True` instruction-selection loop (source lines
174-291), restricted to the state the claims are about: each iteration
resets the environment and re-initializes the per-episode variables —
in particular `is_gripper_closed = False` and the counter `= 0` at source
lines 220-221 are executed anew for every episode — then runs the rollout.
Returns, per episode, the pair (gripper state the episode started with,
gripper state it ended with), plus the final environment state. -/
def instructionLoop (E : EnvModel σ) (threshold N H fuel : Nat)
    (policy : Nat → Nat → List Action) :
    Nat → Nat → σ → List (GripperState × GripperState) × σ
  | 0, _, s => ([], s)
  | eps + 1, ep, s =>
    let st0 : LoopState σ :=
      { env := E.reset s, grip := ⟨false, 0⟩, images := [], t := 0 }
    let r := runLoop E threshold N H (policy ep) fuel 0 st0
    let rest := instructionLoop E threshold N H fuel policy eps (ep + 1) r.1.env
    ((st0.grip, r.1.grip) :: rest.1, rest.2)

/-- A trivially fault-free environment over a unit state. -/
def unitEnv : EnvModel Unit :=
  { step := fun _ _ => some (), frameOf := fun _ => 0, reset := fun s => s }

/-- An environment whose state counts executed steps and whose actuator
raises on the step that would move the counter past `f`: step `s` succeeds
iff `s < f`.  Used to inject an actuator fault mid-batch. -/
def faultEnv (f : Nat) : EnvModel Nat :=
  { step := fun s _ => if s < f then some (s + 1) else none,
    frameOf := fun s => s,
    reset := fun s => s }

/-- An action whose gripper channel is 0, hence requesting a close
(`0 < 0.5`). -/
def closeIntentAction : Action := fun _ => 0

/-- Folding the sticky-gripper state machine over a sequence of per-step
close intents. -/
def gripFold (threshold : Nat) (g : GripperState) (reqs : List Bool) : GripperState :=
  reqs.foldl (gripperUpdate threshold) g

lemma gripperUpdate_agree (T : Nat) (hT : 1 ≤ T) (b : Bool) (c : Nat) :
    gripperUpdate T ⟨b, c⟩ b = ⟨b, 0⟩ := by
  simp only [gripperUpdate, ne_eq, not_true_eq_false, if_false, if_neg (by omega : ¬T ≤ 0)]

lemma gripperUpdate_disagree_lt (T : Nat) (b : Bool) (c : Nat) (h : c + 1 < T) :
    gripperUpdate T ⟨b, c⟩ (!b) = ⟨b, c + 1⟩ := by
  simp only [gripperUpdate, if_pos (Bool.not_ne_self b), if_neg (by omega : ¬T ≤ c + 1)]

lemma gripperUpdate_disagree_flip (T : Nat) (b : Bool) (c : Nat) (h : T ≤ c + 1) :
    gripperUpdate T ⟨b, c⟩ (!b) = ⟨!b, 0⟩ := by
  simp only [gripperUpdate, if_pos (Bool.not_ne_self b), if_pos h]

lemma gripFold_replicate (T : Nat) (b : Bool) :
    ∀ (k c : Nat), c + k < T →
      gripFold T ⟨b, c⟩ (List.replicate k (!b)) = ⟨b, c + k⟩ := by
  intro k
  induction k with
  | zero => intro c _; simp [gripFold]
  | succ k ih =>
    intro c hc
    rw [List.replicate_succ, gripFold, List.foldl_cons,
      gripperUpdate_disagree_lt T b c (by omega)]
    have := ih (c + 1) (by omega)
    rw [gripFold] at this
    rw [this]
    congr 1
    omega

lemma gripFold_flip (T : Nat) (hT : 1 ≤ T) (b : Bool) :
    gripFold T ⟨b, 0⟩ (List.replicate T (!b)) = ⟨!b, 0⟩ := by
  obtain ⟨t, rfl⟩ : ∃ t, T = t + 1 := ⟨T - 1, by omega⟩
  rw [List.replicate_succ', gripFold, List.foldl_append]
  have h1 := gripFold_replicate (t + 1) b t 0 (by omega)
  rw [gripFold] at h1
  rw [h1]
  simp only [List.foldl_cons, List.foldl_nil, Nat.zero_add]
  exact gripperUpdate_disagree_flip (t + 1) b t (by omega)

lemma gripperUpdate_counter_lt (T : Nat) (hT : 1 ≤ T) (s : GripperState) (r : Bool) :
    (gripperUpdate T s r).consecutive_change_count < T := by
  simp only [gripperUpdate]
  rcases le_or_lt T (if r ≠ s.is_closed then s.consecutive_change_count + 1 else 0) with h | h
  · rw [if_pos h]
    simpa using hT
  · rw [if_neg (not_le.mpr h)]
    simpa using h

lemma gripFold_counter_lt (T : Nat) (hT : 1 ≤ T) (g : GripperState) (reqs : List Bool)
    (hne : reqs ≠ []) : (gripFold T g reqs).consecutive_change_count < T := by
  induction reqs generalizing g with
  | nil => exact absurd rfl hne
  | cons r rs ih =>
    have hstep : gripFold T g (r :: rs) = gripFold T (gripperUpdate T g r) rs := by
      simp [gripFold]
    rw [hstep]
    rcases eq_or_ne rs [] with h | h
    · subst h
      simpa [gripFold] using gripperUpdate_counter_lt T hT g r
    · exact ih (gripperUpdate T g r) h

/-- C4: with threshold `T ≥ 1`, starting from state `b` with counter 0,
`k < T` consecutive disagreeing intents leave the state at `b` with
counter `k` (no flip), the `T`-th consecutive disagreeing intent flips the
state and resets the counter, a single agreeing intent resets the counter
to 0 with no flip, the filter's intent is exactly `gripper_channel < 0.5`,
and concretely with `T = 1`, state Open and one close-requesting action
the state becomes Closed with output gripper channel 0.0. -/
theorem claim_C4_debounce_correct (T k c : Nat) (b : Bool) (s : GripperState)
    (a : Action) (hT : 1 ≤ T) (hk : k < T) :
    gripFold T ⟨b, 0⟩ (List.replicate k (!b)) = ⟨b, k⟩ ∧
    gripFold T ⟨b, 0⟩ (List.replicate T (!b)) = ⟨!b, 0⟩ ∧
    gripperUpdate T ⟨b, c⟩ b = ⟨b, 0⟩ ∧
    (stickyGripperStep T s a).1 = gripperUpdate T s (decide (a 6 < 1/2)) ∧
    (stickyGripperStep 1 ⟨false, 0⟩ closeIntentAction).1 = ⟨true, 0⟩ ∧
    (stickyGripperStep 1 ⟨false, 0⟩ closeIntentAction).2 6 = 0 := by
  have h1 := gripFold_replicate T b k 0 (by omega)
  rw [Nat.zero_add] at h1
  exact ⟨h1, gripFold_flip T hT b, gripperUpdate_agree T hT b c, rfl,
    by with_unfolding_all rfl, by with_unfolding_all rfl⟩

theorem claim_C4_debounce_correct_witness :
    1 ≤ 2 ∧ 1 < 2 ∧
      (gripFold 2 ⟨false, 0⟩ (List.replicate 1 (!false)) = ⟨false, 1⟩ ∧
       gripFold 2 ⟨false, 0⟩ (List.replicate 2 (!false)) = ⟨!false, 0⟩ ∧
       gripperUpdate 2 ⟨false, 3⟩ false = ⟨false, 0⟩ ∧
       (stickyGripperStep 2 ⟨true, 0⟩ closeIntentAction).1 =
         gripperUpdate 2 ⟨true, 0⟩ (decide (closeIntentAction 6 < 1/2)) ∧
       (stickyGripperStep 1 ⟨false, 0⟩ closeIntentAction).1 = ⟨true, 0⟩ ∧
       (stickyGripperStep 1 ⟨false, 0⟩ closeIntentAction).2 6 = 0) :=
  ⟨by decide, by decide,
    claim_C4_debounce_correct 2 1 3 false ⟨true, 0⟩ closeIntentAction
      (by decide) (by decide)⟩

/-- C8: after the sticky-gripper filter (and the identity DOF removal),
the executed action's gripper channel is exactly 0 when the filter state is
Closed and exactly 1 when it is Open — never any other value, for every
threshold, prior state and raw (noise-included) input action. -/
theorem claim_C8_gripper_channel_binary (T : Nat) (s : GripperState) (a : Action) :
    removeDof (stickyGripperStep T s a).2 6 =
      (if (stickyGripperStep T s a).1.is_closed then 0 else 1) ∧
    (removeDof (stickyGripperStep T s a).2 6 = 0 ∨
      removeDof (stickyGripperStep T s a).2 6 = 1) := by
  have hrd : ∀ x : Action, removeDof x = x := by
    intro x
    simp [removeDof, NO_PITCH_ROLL, NO_YAW]
  refine ⟨?_, ?_⟩
  · rw [hrd]
    simp [stickyGripperStep]
  · rw [hrd]
    simp only [stickyGripperStep, Function.update_same]
    split <;> simp

/-- C10: with threshold `T ≥ 1`, the debounce counter is strictly below
`T` after every processed action — reaching `T` flips the state and resets
the counter within the same step — both for a single update from any state
and after folding any nonempty intent sequence. -/
theorem claim_C10_counter_invariant (T : Nat) (s : GripperState) (r : Bool)
    (g : GripperState) (reqs : List Bool) (hT : 1 ≤ T) (hne : reqs ≠ []) :
    (gripperUpdate T s r).consecutive_change_count < T ∧
    (gripFold T g reqs).consecutive_change_count < T :=
  ⟨gripperUpdate_counter_lt T hT s r, gripFold_counter_lt T hT g reqs hne⟩

theorem claim_C10_counter_invariant_witness :
    1 ≤ 2 ∧ ([true, true, true] : List Bool) ≠ [] ∧
      ((gripperUpdate 2 ⟨false, 1⟩ true).consecutive_change_count < 2 ∧
       (gripFold 2 ⟨false, 0⟩ [true, true, true]).consecutive_change_count < 2) :=
  ⟨by decide, by decide,
    claim_C10_counter_invariant 2 ⟨false, 1⟩ true ⟨false, 0⟩ [true, true, true]
      (by decide) (by decide)⟩

/-- C7: denormalization is the pure elementwise map `raw * std + mean`:
the all-zero raw vector maps exactly to the mean vector, and the map is
linear in the raw input once centered at the mean — equivalently, the
`raw * std` part is additive and homogeneous. -/
theorem claim_C7_denormalize_exact (std mean : Action) (c : ℚ) (x y : Action) :
    denormalize (fun _ => 0) std mean = mean ∧
    (∀ i, denormalize (fun j => c * x j + y j) std mean i - mean i =
      c * (denormalize x std mean i - mean i) +
        (denormalize y std mean i - mean i)) := by
  constructor
  · funext i
    simp [denormalize]
  · intro i
    simp only [denormalize]
    ring

lemma obsHistPush_of_full (N : Nat) (hN : 1 ≤ N) (buf : List α) (hlen : buf.length = N)
    (o : α) : obsHistPush N buf o = buf.drop 1 ++ [o] := by
  have hne : buf ≠ [] := by
    intro h
    rw [h] at hlen
    simp at hlen
    omega
  rw [obsHistPush, if_neg (by simpa using hne), if_pos (by omega)]

lemma foldl_obsHistPush_of_full (N : Nat) (hN : 1 ≤ N) :
    ∀ (os buf : List α), buf.length = N → os.length ≤ N →
      List.foldl (obsHistPush N) buf os = buf.drop os.length ++ os := by
  intro os
  induction os with
  | nil =>
    intro buf _ _
    simp
  | cons o os ih =>
    intro buf hlen hle
    rw [List.foldl_cons, obsHistPush_of_full N hN buf hlen o]
    have hlen2 : (buf.drop 1 ++ [o]).length = N := by
      simp only [List.length_append, List.length_drop, List.length_singleton]
      omega
    have hle2 : os.length ≤ N := by
      simp only [List.length_cons] at hle
      omega
    rw [ih (buf.drop 1 ++ [o]) hlen2 hle2,
      List.drop_append_of_le_length (by simp [hlen]; simp at hle; omega),
      List.drop_drop, List.append_assoc, List.singleton_append, List.length_cons,
      Nat.add_comm 1 os.length]

lemma obsHistPush_length_le (N : Nat) (buf : List α) (o : α) (h : buf.length ≤ N) :
    (obsHistPush N buf o).length ≤ N := by
  rw [obsHistPush]
  split
  · simp
  · next hne =>
    have hpos : 0 < buf.length := by
      cases buf
      · simp at hne
      · simp
    split
    · next hfull =>
      simp only [List.length_append, List.length_drop, List.length_singleton]
      omega
    · next hroom =>
      simp only [List.length_append, List.length_singleton]
      omega

lemma foldl_obsHistPush_length_le (N : Nat) :
    ∀ (os buf : List α), buf.length ≤ N →
      (List.foldl (obsHistPush N) buf os).length ≤ N := by
  intro os
  induction os with
  | nil =>
    intro buf h
    simpa using h
  | cons o os ih =>
    intro buf h
    rw [List.foldl_cons]
    exact ih _ (obsHistPush_length_le N buf o h)

/-- C5: with history capacity `N > 0`, the first push fills the buffer
with `N` identical copies of the first observation; after `K < N` further
pushes the buffer is the first observation repeated `N - K` times followed
by the `K` most recent observations oldest-first; and the buffer length
never exceeds `N` for any push sequence. -/
theorem claim_C5_history_buffer (N K : Nat) (o0 : α) (os pushes : List α)
    (hN : 0 < N) (hK : os.length = K) (hKN : K < N) :
    obsHistPush N ([] : List α) o0 = List.replicate N o0 ∧
    List.foldl (obsHistPush N) (obsHistPush N ([] : List α) o0) os =
      List.replicate (N - K) o0 ++ os ∧
    (List.foldl (obsHistPush N) ([] : List α) pushes).length ≤ N := by
  have hfirst : obsHistPush N ([] : List α) o0 = List.replicate N o0 := by
    simp [obsHistPush]
  refine ⟨hfirst, ?_, foldl_obsHistPush_length_le N pushes [] (by simp)⟩
  rw [hfirst, foldl_obsHistPush_of_full N (by omega) os (List.replicate N o0)
    (List.length_replicate N o0) (by omega), hK, List.drop_replicate]

theorem claim_C5_history_buffer_witness :
    0 < 3 ∧ ([7, 9] : List Nat).length = 2 ∧ 2 < 3 ∧
      (obsHistPush 3 ([] : List Nat) 5 = List.replicate 3 5 ∧
       List.foldl (obsHistPush 3) (obsHistPush 3 ([] : List Nat) 5) [7, 9] =
         List.replicate (3 - 2) 5 ++ [7, 9] ∧
       (List.foldl (obsHistPush 3) ([] : List Nat) [1, 2, 3, 4, 5]).length ≤ 3) :=
  ⟨by decide, by decide, by decide,
    claim_C5_history_buffer 3 2 5 [7, 9] [1, 2, 3, 4, 5] (by decide) (by decide)
      (by decide)⟩

lemma execBatch_nofault {σ : Type} (E : EnvModel σ)
    (hE : ∀ s a, (E.step s a).isSome = true) (T fr : Nat) :
    ∀ (H : Nat) (as : List Action) (st : LoopState σ),
      (execBatch E T fr H as st).1.t = st.t + min H as.length ∧
      (execBatch E T fr H as st).1.images =
        st.images ++ List.replicate (min H as.length) fr ∧
      (H ≤ as.length → (execBatch E T fr H as st).2 = true) := by
  intro H
  induction H with
  | zero =>
    intro as st
    simp [execBatch]
  | succ h ih =>
    intro as st
    cases as with
    | nil =>
      simp [execBatch]
    | cons a rest =>
      obtain ⟨e2, he2⟩ := Option.isSome_iff_exists.mp
        (hE st.env (removeDof (stickyGripperStep T st.grip
          (fun i => a i + gaussianNoiseSample i)).2))
      have hunfold : execBatch E T fr (h + 1) (a :: rest) st =
          execBatch E T fr h rest
            { env := e2,
              grip := (stickyGripperStep T st.grip
                (fun i => a i + gaussianNoiseSample i)).1,
              images := st.images ++ [fr], t := st.t + 1 } := by
        simp only [execBatch]
        rw [he2]
      rw [hunfold]
      obtain ⟨ht, him, hok⟩ := ih rest
        { env := e2,
          grip := (stickyGripperStep T st.grip
            (fun i => a i + gaussianNoiseSample i)).1,
          images := st.images ++ [fr], t := st.t + 1 }
      refine ⟨?_, ?_, ?_⟩
      · rw [ht]
        simp only [List.length_cons, Nat.succ_min_succ]
        omega
      · rw [him]
        simp only [List.length_cons, Nat.succ_min_succ, List.replicate_succ,
          List.append_assoc, List.singleton_append]
      · intro hle
        exact hok (by simpa using Nat.le_of_succ_le_succ hle)

/-- C1: one run of the action-sequence execution step over a batch of
length `L` with execution horizon `H`, against an actuator that raises no
exception, advances the step counter by exactly `min H L` (one per
executed action) and appends exactly `min H L` frames to the episode's
frame list. -/
theorem claim_C1_exec_horizon_cap {σ : Type} (E : EnvModel σ) (T fr H : Nat)
    (as : List Action) (st : LoopState σ)
    (hE : ∀ s a, (E.step s a).isSome = true) :
    (execBatch E T fr H as st).1.t = st.t + min H as.length ∧
    (execBatch E T fr H as st).1.images =
      st.images ++ List.replicate (min H as.length) fr :=
  ⟨(execBatch_nofault E hE T fr H as st).1,
   (execBatch_nofault E hE T fr H as st).2.1⟩

theorem claim_C1_exec_horizon_cap_witness :
    (∀ (s : Unit) (a : Action), (unitEnv.step s a).isSome = true) ∧
      ((execBatch unitEnv 1 4 2 [closeIntentAction]
          ⟨(), ⟨false, 0⟩, [], 0⟩).1.t = 0 + min 2 1 ∧
       (execBatch unitEnv 1 4 2 [closeIntentAction]
          ⟨(), ⟨false, 0⟩, [], 0⟩).1.images = [] ++ List.replicate (min 2 1) 4) :=
  ⟨fun _ _ => rfl,
    claim_C1_exec_horizon_cap unitEnv 1 4 2 [closeIntentAction]
      ⟨(), ⟨false, 0⟩, [], 0⟩ (fun _ _ => rfl)⟩

/-- A policy that always returns a batch of two close-requesting actions. -/
def twoActionBatches : Nat → List Action := fun _ => [closeIntentAction, closeIntentAction]

/-- A policy that always returns a batch of one close-requesting action. -/
def singleActionBatch : Nat → List Action := fun _ => [closeIntentAction]

lemma runLoop_nofault_count {σ : Type} (E : EnvModel σ)
    (hE : ∀ s a, (E.step s a).isSome = true) (T N H : Nat)
    (policy : Nat → List Action) (_hH : 1 ≤ H)
    (hpol : ∀ j, H ≤ (policy j).length) :
    ∀ (fuel k : Nat) (st : LoopState σ), H ∣ st.t → st.t < N + H →
      N ≤ st.t + fuel * H →
      N ≤ (runLoop E T N H policy fuel k st).1.t ∧
      (runLoop E T N H policy fuel k st).1.t < N + H ∧
      H ∣ (runLoop E T N H policy fuel k st).1.t := by
  intro fuel
  induction fuel with
  | zero =>
    intro k st hdvd hlt hN
    simp only [runLoop]
    exact ⟨by omega, hlt, hdvd⟩
  | succ fuel ih =>
    intro k st hdvd hlt hN
    simp only [runLoop]
    by_cases hc : st.t < N
    · rw [if_pos hc]
      have hcounts := execBatch_nofault E hE T (E.frameOf st.env) H (policy k) st
      have hok : (execBatch E T (E.frameOf st.env) H (policy k) st).2 = true :=
        hcounts.2.2 (hpol k)
      have ht : (execBatch E T (E.frameOf st.env) H (policy k) st).1.t = st.t + H := by
        rw [hcounts.1, Nat.min_eq_left (hpol k)]
      rw [hok, if_pos rfl]
      have hmul : (fuel + 1) * H = fuel * H + H := by ring
      exact ih (k + 1) _ (by rw [ht]; exact Dvd.dvd.add hdvd dvd_rfl)
        (by rw [ht]; omega) (by rw [ht]; omega)
    · rw [if_neg hc]
      refine ⟨?_, hlt, hdvd⟩
      show N ≤ st.t
      omega

/-- C2 counterexample: with `num_timesteps = 1` and `act_exec_horizon = 2`,
a fault-free episode executes 2 actions — strictly more than
`num_timesteps` — refuting "exactly `num_timesteps` total actions, never
more, for every configuration". -/
theorem claim_C2_cex :
    (runLoop unitEnv 1 1 2 twoActionBatches 1 0 ⟨(), ⟨false, 0⟩, [], 0⟩).2 = true ∧
    (runLoop unitEnv 1 1 2 twoActionBatches 1 0 ⟨(), ⟨false, 0⟩, [], 0⟩).1.t = 2 ∧
    ¬((runLoop unitEnv 1 1 2 twoActionBatches 1 0 ⟨(), ⟨false, 0⟩, [], 0⟩).1.t ≤ 1) := by
  refine ⟨by with_unfolding_all rfl, by with_unfolding_all rfl, ?_⟩
  have h : (runLoop unitEnv 1 1 2 twoActionBatches 1 0 ⟨(), ⟨false, 0⟩, [], 0⟩).1.t = 2 := by
    with_unfolding_all rfl
  rw [h]
  decide

/-- C2 amended: in a fault-free episode with `act_exec_horizon = H ≥ 1`
(and every policy batch long enough to serve it), the loop executes a
total that is a multiple of `H`, at least `num_timesteps = N`, and less
than `N + H` — i.e. the least multiple of `H` that is `≥ N`; in particular
it equals `N` exactly when `H` divides `N` (so for the default `H = 1`). -/
theorem claim_C2_amended {σ : Type} (E : EnvModel σ) (T N H fuel k : Nat)
    (policy : Nat → List Action) (s : σ) (g : GripperState)
    (hE : ∀ s a, (E.step s a).isSome = true) (hH : 1 ≤ H)
    (hpol : ∀ j, H ≤ (policy j).length) (hfuel : N ≤ fuel) :
    N ≤ (runLoop E T N H policy fuel k ⟨s, g, [], 0⟩).1.t ∧
    (runLoop E T N H policy fuel k ⟨s, g, [], 0⟩).1.t < N + H ∧
    H ∣ (runLoop E T N H policy fuel k ⟨s, g, [], 0⟩).1.t ∧
    (H ∣ N → (runLoop E T N H policy fuel k ⟨s, g, [], 0⟩).1.t = N) := by
  have hfH : N ≤ 0 + fuel * H := by
    have : fuel ≤ fuel * H := Nat.le_mul_of_pos_right fuel (by omega)
    omega
  have h := runLoop_nofault_count E hE T N H policy hH hpol fuel k
    ⟨s, g, [], 0⟩ (dvd_zero H) (by show (0:Nat) < N + H; omega) hfH
  refine ⟨h.1, h.2.1, h.2.2, fun hdvdN => ?_⟩
  have hsub : H ∣ (runLoop E T N H policy fuel k ⟨s, g, [], 0⟩).1.t - N :=
    Nat.dvd_sub' h.2.2 hdvdN
  have hzero := Nat.eq_zero_of_dvd_of_lt hsub
  rcases Nat.eq_zero_or_pos ((runLoop E T N H policy fuel k ⟨s, g, [], 0⟩).1.t - N) with
    hz | hpos
  · omega
  · have := hzero (by omega)
    omega

theorem claim_C2_amended_witness :
    (∀ (s : Unit) (a : Action), (unitEnv.step s a).isSome = true) ∧ 1 ≤ 1 ∧
      (∀ j, 1 ≤ (singleActionBatch j).length) ∧ 2 ≤ 2 ∧
      (2 ≤ (runLoop unitEnv 1 2 1 singleActionBatch 2 0 ⟨(), ⟨false, 0⟩, [], 0⟩).1.t ∧
       (runLoop unitEnv 1 2 1 singleActionBatch 2 0 ⟨(), ⟨false, 0⟩, [], 0⟩).1.t < 2 + 1 ∧
       1 ∣ (runLoop unitEnv 1 2 1 singleActionBatch 2 0 ⟨(), ⟨false, 0⟩, [], 0⟩).1.t ∧
       (1 ∣ 2 → (runLoop unitEnv 1 2 1 singleActionBatch 2 0 ⟨(), ⟨false, 0⟩, [], 0⟩).1.t = 2)) :=
  ⟨fun _ _ => rfl, by decide, fun _ => by simp [singleActionBatch], by decide,
    claim_C2_amended unitEnv 1 2 1 2 0 singleActionBatch () ⟨false, 0⟩
      (fun _ _ => rfl) (by decide) (fun _ => by simp [singleActionBatch]) (by decide)⟩

/-- A per-episode policy that always returns one close-requesting action. -/
def episodePolicy : Nat → Nat → List Action := fun _ _ => [closeIntentAction]

/-- C3 counterexample: running two consecutive episodes (threshold
`STICKY_GRIPPER_NUM_STEPS = 1`, one close-requesting action each), the
first episode ends with the gripper state Closed, yet the second episode
starts with the gripper state Open with counter 0 — the state carried into
the new episode does not equal the state at the end of the previous one,
because lines 220-221 re-initialize it inside the per-episode loop. -/
theorem claim_C3_cex :
    (instructionLoop unitEnv STICKY_GRIPPER_NUM_STEPS 1 1 1 episodePolicy 2 0 ()).1 =
      [(⟨false, 0⟩, ⟨true, 0⟩), (⟨false, 0⟩, ⟨true, 0⟩)] ∧
    (⟨false, 0⟩ : GripperState) ≠ ⟨true, 0⟩ :=
  ⟨by with_unfolding_all rfl, by decide⟩

/-- C3 amended: the sticky-gripper state is re-initialized at the start of
every episode — each iteration of the instruction-selection loop begins
with `is_closed = false` and counter 0, regardless of the state at the end
of the previous episode. -/
theorem claim_C3_amended {σ : Type} (E : EnvModel σ) (T N H fuel eps k : Nat)
    (policy : Nat → Nat → List Action) (s : σ)
    (p : GripperState × GripperState)
    (hp : p ∈ (instructionLoop E T N H fuel policy eps k s).1) :
    p.1 = ⟨false, 0⟩ := by
  induction eps generalizing k s with
  | zero =>
    simp [instructionLoop] at hp
  | succ eps ih =>
    simp only [instructionLoop] at hp
    rcases List.mem_cons.mp hp with h | h
    · rw [h]
    · exact ih _ _ h

theorem claim_C3_amended_witness :
    ((⟨false, 0⟩, ⟨true, 0⟩) : GripperState × GripperState) ∈
        (instructionLoop unitEnv 1 1 1 1 episodePolicy 2 0 ()).1 ∧
      ((⟨false, 0⟩, ⟨true, 0⟩) : GripperState × GripperState).1 = ⟨false, 0⟩ :=
  ⟨by with_unfolding_all decide,
    claim_C3_amended unitEnv 1 1 1 1 2 0 episodePolicy () (⟨false, 0⟩, ⟨true, 0⟩)
      (by with_unfolding_all decide)⟩

/-- C9: a 1-dimensional policy output (a single 7-vector) is promoted to a
batch of length 1 before indexing, and the executor treats it exactly like
a 2-dimensional batch containing that one action. -/
theorem claim_C9_single_action_promotion {σ : Type} (E : EnvModel σ)
    (T fr H : Nat) (a : Action) (st : LoopState σ) :
    promoteActions (.dim1 a) = [a] ∧
    execBatch E T fr H (promoteActions (.dim1 a)) st =
      execBatch E T fr H (promoteActions (.dim2 [a])) st :=
  ⟨rfl, rfl⟩

lemma execBatch_faultEnv (T fr f : Nat) :
    ∀ (j H : Nat) (as : List Action) (st : LoopState Nat),
      st.env + j = f → j < H → j < as.length →
      (execBatch (faultEnv f) T fr H as st).2 = false ∧
      (execBatch (faultEnv f) T fr H as st).1.t = st.t + j ∧
      (execBatch (faultEnv f) T fr H as st).1.images =
        st.images ++ List.replicate j fr ∧
      (execBatch (faultEnv f) T fr H as st).1.env = f := by
  intro j
  induction j with
  | zero =>
    intro H as st he hH hL
    cases H with
    | zero => omega
    | succ h =>
      cases as with
      | nil => simp at hL
      | cons a rest =>
        have hstep : (faultEnv f).step st.env (removeDof (stickyGripperStep T st.grip
            (fun i => a i + gaussianNoiseSample i)).2) = none := by
          simp only [faultEnv]
          rw [if_neg (by omega)]
        have hunfold : execBatch (faultEnv f) T fr (h + 1) (a :: rest) st =
            ({ st with grip := (stickyGripperStep T st.grip
                (fun i => a i + gaussianNoiseSample i)).1 }, false) := by
          simp only [execBatch]
          rw [hstep]
        rw [hunfold]
        exact ⟨rfl, by simp, by simp, by simp; omega⟩
  | succ j ih =>
    intro H as st he hH hL
    cases H with
    | zero => omega
    | succ h =>
      cases as with
      | nil => simp at hL
      | cons a rest =>
        have hstep : (faultEnv f).step st.env (removeDof (stickyGripperStep T st.grip
            (fun i => a i + gaussianNoiseSample i)).2) = some (st.env + 1) := by
          simp only [faultEnv]
          rw [if_pos (by omega)]
        have hunfold : execBatch (faultEnv f) T fr (h + 1) (a :: rest) st =
            execBatch (faultEnv f) T fr h rest
              { env := st.env + 1,
                grip := (stickyGripperStep T st.grip
                  (fun i => a i + gaussianNoiseSample i)).1,
                images := st.images ++ [fr], t := st.t + 1 } := by
          simp only [execBatch]
          rw [hstep]
        rw [hunfold]
        obtain ⟨hok, ht, him, henv⟩ := ih h rest
          { env := st.env + 1,
            grip := (stickyGripperStep T st.grip
              (fun i => a i + gaussianNoiseSample i)).1,
            images := st.images ++ [fr], t := st.t + 1 }
          (by simp; omega) (by omega) (by simp at hL ⊢; omega)
        refine ⟨hok, ?_, ?_, henv⟩
        · rw [ht]
          simp only
          omega
        · rw [him]
          simp only [List.append_assoc, List.singleton_append, ← List.replicate_succ]

lemma instructionLoop_length {σ : Type} (E : EnvModel σ) (T N H fuel : Nat)
    (policy : Nat → Nat → List Action) :
    ∀ (eps k : Nat) (s : σ),
      (instructionLoop E T N H fuel policy eps k s).1.length = eps := by
  intro eps
  induction eps with
  | zero =>
    intro k s
    rfl
  | succ eps ih =>
    intro k s
    simp only [instructionLoop, List.length_cons, ih]

/-- C6: an actuator exception raised on the `j`-th sub-step of a batch
(strictly mid-batch: `j < H` and `j < L`) abandons the remaining steps of
the current action-sequence execution — exactly `j` actions executed, the
environment never stepped past the fault — while the `j` frames captured
before the fault are preserved; a configured video sink always receives
exactly the accumulated episode frames, fault or not; and the
instruction-selection loop keeps running its remaining episodes regardless
of faults (the process does not crash). -/
theorem claim_C6_fault_containment (T fr H f j : Nat) (as : List Action)
    (st : LoopState Nat) (he : st.env + j = f) (hjH : j < H) (hjL : j < as.length) :
    ((execBatch (faultEnv f) T fr H as st).2 = false ∧
     (execBatch (faultEnv f) T fr H as st).1.t = st.t + j ∧
     (execBatch (faultEnv f) T fr H as st).1.images =
       st.images ++ List.replicate j fr ∧
     (execBatch (faultEnv f) T fr H as st).1.env = f) ∧
    (∀ {σ : Type} (E : EnvModel σ) (N fuel : Nat) (policy : Nat → List Action)
      (s : σ),
      (runEpisodeAndSave E T N H fuel policy true s).2 =
        some (runEpisodeAndSave E T N H fuel policy true s).1.1.images) ∧
    (∀ {σ : Type} (E : EnvModel σ) (N fuel eps k : Nat)
      (policy : Nat → Nat → List Action) (s : σ),
      (instructionLoop E T N H fuel policy eps k s).1.length = eps) := by
  refine ⟨execBatch_faultEnv T fr f j H as st he hjH hjL, ?_, ?_⟩
  · intro σ E N fuel policy s
    rfl
  · intro σ E N fuel eps k policy s
    exact instructionLoop_length E T N H fuel policy eps k s

theorem claim_C6_fault_containment_witness :
    (0 : Nat) + 1 = 1 ∧ 1 < 3 ∧
      1 < ([closeIntentAction, closeIntentAction, closeIntentAction]).length ∧
      (((execBatch (faultEnv 1) 1 9 3
            [closeIntentAction, closeIntentAction, closeIntentAction]
            ⟨0, ⟨false, 0⟩, [], 0⟩).2 = false ∧
        (execBatch (faultEnv 1) 1 9 3
            [closeIntentAction, closeIntentAction, closeIntentAction]
            ⟨0, ⟨false, 0⟩, [], 0⟩).1.t = 0 + 1 ∧
        (execBatch (faultEnv 1) 1 9 3
            [closeIntentAction, closeIntentAction, closeIntentAction]
            ⟨0, ⟨false, 0⟩, [], 0⟩).1.images = [] ++ List.replicate 1 9 ∧
        (execBatch (faultEnv 1) 1 9 3
            [closeIntentAction, closeIntentAction, closeIntentAction]
            ⟨0, ⟨false, 0⟩, [], 0⟩).1.env = 1) ∧
       (∀ {σ : Type} (E : EnvModel σ) (N fuel : Nat) (policy : Nat → List Action)
         (s : σ),
         (runEpisodeAndSave E 1 N 3 fuel policy true s).2 =
           some (runEpisodeAndSave E 1 N 3 fuel policy true s).1.1.images) ∧
       (∀ {σ : Type} (E : EnvModel σ) (N fuel eps k : Nat)
         (policy : Nat → Nat → List Action) (s : σ),
         (instructionLoop E 1 N 3 fuel policy eps k s).1.length = eps)) :=
  ⟨rfl, by decide, by simp,
    claim_C6_fault_containment 1 9 3 1 1
      [closeIntentAction, closeIntentAction, closeIntentAction]
      ⟨0, ⟨false, 0⟩, [], 0⟩ rfl (by decide) (by simp)⟩

end EvalLC
